import Mathlib

/-!
Shallow embedding of the microcode detection/validation core of MCExtractor
(src/MCE.py) and proofs checking the frozen claims of its specification.

Buffers and byte regions are modelled as `List Nat`, each element one byte
(a value below 256 in every real input; the definitions follow the Python
code, which indexes `bytes` objects, so no masking is inserted beyond what
the source performs).  Machine integers are `Nat` with explicit `% 2^32`
where the source wraps (`& 0xFFFFFFFF`).  Fixed-width zero-padded hex/BCD
strings that the source compares lexicographically (dates `yyyymmdd`,
8-digit hex revisions) are modelled by their numeric values: for equal
width, zero-padded uppercase-hex string order coincides with numeric order.
-/

namespace MCE

/-- Value of a little-endian byte list, as `int.from_bytes(data, 'little')`. -/
def bytesLE : List Nat → Nat
  | [] => 0
  | b :: bs => b + 256 * bytesLE bs

/-- Value of a big-endian byte list, as `int.from_bytes(data, 'big')`. -/
def bytesBE (l : List Nat) : Nat := bytesLE l.reverse

/-- Running dword sum of `checksum32` (MCE.py 625-631): the loop
`for idx in range(0, len(data), 4): chk32 += int.from_bytes(data[idx:idx+4], 'little')`. -/
def checksum32Sum : List Nat → Nat
  | a :: b :: c :: d :: rest => bytesLE [a, b, c, d] + checksum32Sum rest
  | rest => bytesLE rest

/-- MCE.py 625-631 `checksum32`: returns `-chk32 & 0xFFFFFFFF`, which for a
Python arbitrary-precision integer is the nonnegative residue of the negated
sum modulo 2^32. -/
def checksum32 (data : List Nat) : Nat :=
  ((-(checksum32Sum data : Int)) % (2 ^ 32 : Int)).toNat

/-- MCE.py 651-661 `intel_plat`: list of platform bit positions of an Intel
platform-IDs bitmask; a zero mask is 1995-1998 style and maps to `[0]`. -/
def intel_plat (cpuflags : Nat) : List Nat :=
  if cpuflags = 0 then [0]
  else (List.range 8).filter (fun bit => (cpuflags >>> bit) &&& 1 = 1)

/-- MCE.py 671-681 `date_check`: plausibility check of a (year, month, day)
triple, with the four-divisibility leap rule for February. -/
def date_check (year month day : Nat) : Bool :=
  if ¬ (1 ≤ month ∧ month ≤ 12 ∧ 1 ≤ day ∧ day ≤ 31) then false
  else if year % 4 = 0 then
    if month = 2 ∧ day > 29 then false else true
  else
    if month = 2 ∧ day > 28 then false else true

/-- Release channel of a 32-bit revision value, as in MCE.py 795 and 1255:
`'PRE' if ctypes.c_int(ver).value < 0 else 'PRD'`.  `true` means PRE (the
sign bit of the value taken as a signed 32-bit integer is set). -/
def rel_is_pre (ver : Nat) : Bool := decide (2 ^ 31 ≤ ver % 2 ^ 32)

/-- Strictly-earlier comparison of two (year, month, day) dates, as written
in MCE.py 799 and 819: `year < db_year or (year == db_year and (month <
db_month or (month == db_month and day < db_day)))`.  The source compares
fixed-width zero-padded digit strings, whose order equals numeric order. -/
def date_lt (y1 m1 d1 y2 m2 d2 : Nat) : Bool :=
  decide (y1 < y2 ∨ (y1 = y2 ∧ (m1 < m2 ∨ (m1 = m2 ∧ d1 < d2))))

/-- One row of the Intel latest-revision query result (MCE.py 1389):
columns `yyyymmdd, platform, version` of catalog rows sharing the
candidate's CPUID.  The date is split into its `[:4]`, `[4:6]`, `[6:8]`
slices, and `platform`/`version` hold the parsed values `int(entry[k], 16)`. -/
structure IntelRow where
  year : Nat
  month : Nat
  day : Nat
  platform : Nat
  version : Nat

/-- Loop-body condition of `mc_upd_chk_intel` (MCE.py 797-800): same release
channel, candidate platform bits a subset of the row's platform bits, and
either a strictly later row date, or an equal date with more platform bits
or a higher numeric revision (the tie-break disabled under `-last`). -/
def intel_row_match (in_pl_bit : List Nat) (in_rel : Bool) (in_ver : Nat)
    (get_last : Bool) (y m d : Nat) (e : IntelRow) : Bool :=
  (in_rel == rel_is_pre e.version) &&
  in_pl_bit.all (fun b => decide (b ∈ intel_plat e.platform)) &&
  (date_lt y m d e.year e.month e.day ||
    ((y == e.year && m == e.month && d == e.day) &&
     (decide (in_pl_bit.length < (intel_plat e.platform).length) ||
      decide (in_ver < e.version)) &&
     !get_last))

/-- MCE.py 784-806 `mc_upd_chk_intel`: `is_latest` starts `True`, every
matching row forces it to `False`, and a modded input (`in_mod == 1`) is
never latest.  (`mc_latest`, display-only, is not modelled.) -/
def mc_upd_chk_intel (rows : List IntelRow) (in_pl_bit : List Nat) (in_rel : Bool)
    (in_ver in_mod : Nat) (get_last : Bool) (y m d : Nat) : Bool :=
  let r := rows.foldl
    (fun is_latest e =>
      if intel_row_match in_pl_bit in_rel in_ver get_last y m d e then false
      else is_latest) true
  if in_mod = 1 then false else r

/-- One entry of the AMD latest-revision query result (MCE.py 1572):
columns `yyyymmdd, version`, with the date split as for Intel. -/
structure AmdEntry where
  year : Nat
  month : Nat
  day : Nat
  version : Nat

/-- Loop-body condition of `mc_upd_chk_amd` (MCE.py 818-820): strictly later
row date, or equal date with a higher numeric revision (tie-break disabled
under `-last`). -/
def amd_entry_match (in_ver : Nat) (get_last : Bool) (y m d : Nat) (e : AmdEntry) : Bool :=
  date_lt y m d e.year e.month e.day ||
    ((y == e.year && m == e.month && d == e.day) && decide (in_ver < e.version) && !get_last)

/-- MCE.py 808-826 `mc_upd_chk_amd`: `is_latest` starts `True`, every
matching entry forces it to `False`, and a modded input is never latest. -/
def mc_upd_chk_amd (rows : List AmdEntry) (in_ver in_mod : Nat) (get_last : Bool)
    (y m d : Nat) : Bool :=
  let r := rows.foldl
    (fun is_latest e =>
      if amd_entry_match in_ver get_last y m d e then false else is_latest) true
  if in_mod = 1 then false else r

/-- One row of the AMD catalog table, with the identity columns used by the
queries at MCE.py 1546-1548 and 1572. -/
structure AmdRecord where
  cpuid : Nat
  nbdevid : Nat
  sbdevid : Nat
  nbsbrev : Nat
  version : Nat
  year : Nat
  month : Nat
  day : Nat

/-- The AMD latest-revision query (MCE.py 1572):
`SELECT yyyymmdd,version FROM AMD WHERE cpuid=?` — the filter is on the
CPUID column alone. -/
def amd_upd_chk_rsl (cat : List AmdRecord) (c : Nat) : List AmdEntry :=
  (cat.filter (fun r => r.cpuid == c)).map (fun r => ⟨r.year, r.month, r.day, r.version⟩)

/-- AMD latest decision as wired at MCE.py 1572-1575: the comparator applied
to the CPUID-filtered catalog rows. -/
def amd_is_latest (cat : List AmdRecord) (c in_ver in_mod : Nat) (get_last : Bool)
    (y m d : Nat) : Bool :=
  mc_upd_chk_amd (amd_upd_chk_rsl cat c) in_ver in_mod get_last y m d

/-- Per-byte state of zlib's Adler-32: `a` accumulates bytes, `b`
accumulates `a`, both modulo 65521. -/
def adler32_loop : Nat → Nat → List Nat → Nat × Nat
  | a, b, [] => (a, b)
  | a, b, x :: xs => adler32_loop ((a + x) % 65521) ((b + (a + x) % 65521) % 65521) xs

/-- MCE.py 619-620 `adler32`: `zlib.adler32(data, iv) & 0xFFFFFFFF`.  zlib
splits the start value into low half `a` and high half `b` and returns
`b * 2^16 + a` after the loop. -/
def adler32 (data : List Nat) (iv : Nat) : Nat :=
  let p := adler32_loop (iv % 2 ^ 16) (iv / 2 ^ 16 % 2 ^ 16) data
  (p.2 * 2 ^ 16 + p.1) % 2 ^ 32

/-- AMD checksum verdict (MCE.py 1607-1610): `0` when the catalog row's
stored Adler-32 fingerprint (`mc_at_db[8]`, `db_adler` here, `none` when
the candidate is not in the catalog) matches the candidate's; otherwise
`(checksum32(mc_data[0x40:]) + mc_chk) & 0xFFFFFFFF` when the declared
checksum `mc_chk` is nonzero; otherwise `0` (check skipped). -/
def amd_mc_chk_ok : Option Nat → Nat → List Nat → Nat
  | some a, mc_chk, mc_data =>
    if adler32 mc_data 1 = a then 0
    else if mc_chk ≠ 0 then (checksum32 (mc_data.drop 0x40) + mc_chk) % 2 ^ 32 else 0
  | none, mc_chk, mc_data =>
    if mc_chk ≠ 0 then (checksum32 (mc_data.drop 0x40) + mc_chk) % 2 ^ 32 else 0

/-- AMD corrupted classification (MCE.py 1612): nonzero checksum verdict. -/
def amd_corrupted (db_adler : Option Nat) (mc_chk : Nat) (mc_data : List Nat) : Bool :=
  amd_mc_chk_ok db_adler mc_chk mc_data != 0

/-- One register round of the reflected CRC-32 (polynomial 0xEDB88320). -/
def crc32_round (c : Nat) : Nat :=
  if c % 2 = 1 then (c / 2) ^^^ 0xEDB88320 else c / 2

/-- Iterated CRC-32 register rounds. -/
def crc32_rounds : Nat → Nat → Nat
  | c, 0 => c
  | c, n + 1 => crc32_rounds (crc32_round c) n

/-- Raw reflected CRC-32 run over a byte list starting from register value
`c`, with no pre- or post-conditioning: the bit-serial equivalent of zlib's
internal table loop `crc = crc_table[(crc ^ byte) & 0xFF] ^ (crc >> 8)`. -/
def crc32_process (c : Nat) : List Nat → Nat
  | [] => c
  | b :: bs => crc32_process (crc32_rounds (c ^^^ b % 256) 8) bs

/-- MCE.py 622-623 `crc32`: `zlib.crc32(data, iv) & 0xFFFFFFFF`.  zlib
XORs the incoming running value with 0xFFFFFFFF before the table loop and
XORs the result with 0xFFFFFFFF after it. -/
def crc32 (data : List Nat) (iv : Nat) : Nat :=
  crc32_process (iv ^^^ 0xFFFFFFFF) data ^^^ 0xFFFFFFFF

/-- Modelled from the spec (for comparison only): "CRC-32/ISO-HDLC" —
reflected polynomial, initial register state all-ones, final XOR all-ones,
the variant the spec names as Freescale's integrity algorithm. -/
def crc32_iso_hdlc (data : List Nat) : Nat :=
  crc32_process 0xFFFFFFFF data ^^^ 0xFFFFFFFF

/-- Freescale stored module checksum (MCE.py 1788):
`int.from_bytes(mc_data[-0x4:], 'big')`. -/
def fsl_stored_chk (mc_data : List Nat) : Nat :=
  bytesBE (mc_data.drop (mc_data.length - 4))

/-- Freescale computed check value (MCE.py 1853, catalog bypass not taken):
`crc32(mc_data[:-4], 0xFFFFFFFF) ^ 0xFFFFFFFF`. -/
def fsl_chk_calc (mc_data : List Nat) : Nat :=
  crc32 (mc_data.take (mc_data.length - 4)) 0xFFFFFFFF ^^^ 0xFFFFFFFF

/-- Freescale checksum verdict (MCE.py 1853): the stored checksum itself
when the catalog row's Adler-32 fingerprint matches (check bypassed), else
the computed CRC value. -/
def fsl_mc_chk_ok : Option Nat → List Nat → Nat
  | some a, mc_data =>
    if adler32 mc_data 1 = a then fsl_stored_chk mc_data else fsl_chk_calc mc_data
  | none, mc_data => fsl_chk_calc mc_data

/-- Freescale corrupted classification (MCE.py 1858): verdict differs from
the stored checksum. -/
def fsl_corrupted (db_adler : Option Nat) (mc_data : List Nat) : Bool :=
  fsl_mc_chk_ok db_adler mc_data != fsl_stored_chk mc_data

/-- Intel main-region checksum verdict (MCE.py 1426): `0` when the catalog
row's stored Adler-32 (`mc_at_db[6]`) matches, else `checksum32(mc_data)`. -/
def intel_mc_chk_ok : Option Nat → List Nat → Nat
  | some a, mc_data => if adler32 mc_data 1 = a then 0 else checksum32 mc_data
  | none, mc_data => checksum32 mc_data

/-- Intel extended-header checksum verdict (MCE.py 1318): `0` when the
catalog row's stored extended Adler-32 (`mc_at_db[7]`) matches, else
`checksum32(ext_header_data)`. -/
def intel_valid_ext_chk : Option Nat → List Nat → Nat
  | some a, ext_data => if adler32 ext_data 1 = a then 0 else checksum32 ext_data
  | none, ext_data => checksum32 ext_data

/-- Value of `valid_ext_chk` reaching MCE.py 1428: the initial `0` of 1243
when the candidate has no Extended Header, else the verdict of 1318 over
the extended-header region. -/
def intel_ext_verdict (db : Option (Nat × Nat)) : Option (List Nat) → Nat
  | some ed => intel_valid_ext_chk (db.map Prod.snd) ed
  | none => 0

/-- Intel corrupted classification (MCE.py 1428-1433): either checksum
verdict nonzero and the candidate not on the `known_bad_intel` allow-list.
`db` pairs the catalog row's stored `adler32` and `adler32e` columns. -/
def intel_corrupted (db : Option (Nat × Nat)) (mc_data : List Nat)
    (ext_data : Option (List Nat)) (known_bad : Bool) : Bool :=
  (intel_mc_chk_ok (db.map Prod.fst) mc_data != 0 ||
    intel_ext_verdict db ext_data != 0) && !known_bad

/-- VIA checksum verdict (MCE.py 1729), same shape as Intel's main one. -/
def via_mc_chk_ok : Option Nat → List Nat → Nat
  | some a, mc_data => if adler32 mc_data 1 = a then 0 else checksum32 mc_data
  | none, mc_data => checksum32 mc_data

/-- VIA corrupted classification (MCE.py 1731-1738): nonzero verdict and
the candidate not one of the two hard-coded VIA allow-list entries. -/
def via_corrupted (db_adler : Option Nat) (mc_data : List Nat) (exception : Bool) : Bool :=
  (via_mc_chk_ok db_adler mc_data != 0) && !exception

/-- Little-endian 4-byte encoding of a 32-bit value: `struct.pack('<I', v)`
(MCE.py 1328-1330). -/
def le32 (v : Nat) : List Nat :=
  [v % 256, v / 256 % 256, v / 65536 % 256, v / 16777216 % 256]

/-- Python bytearray slice assignment `d[off:off + len(r)] = r` for an
in-range slice: the `len(r)` bytes at `off` are replaced by `r`. -/
def setSlice (d : List Nat) (off : Nat) (r : List Nat) : List Nat :=
  d.take off ++ r ++ d.drop (off + r.length)

/-- One Extended-Header field (MCE.py 339-346
`Intel_MC_Header_Extended_Field`): three uint32 values. -/
structure ExtField where
  ProcessorSignature : Nat
  PlatformIDs : Nat
  Checksum : Nat

/-- MCE.py 1327-1330: duplicate the container bytes and overwrite the three
dwords at 0x0C (CPUID), 0x10 (Checksum) and 0x18 (Platform IDs) with the
Extended-Header field's values. -/
def materialize_ext (mc_data : List Nat) (f : ExtField) : List Nat :=
  setSlice
    (setSlice (setSlice mc_data 0xC (le32 f.ProcessorSignature)) 0x10 (le32 f.Checksum))
    0x18 (le32 f.PlatformIDs)

/-- Little-endian field read of `n` bytes at offset `off` of a buffer, as
the ctypes struct decoder does for a little-endian field. -/
def readLE (d : List Nat) (off n : Nat) : Nat := bytesLE ((d.drop off).take n)

/-- Intel main-header `ProcessorSignature`: uint32 at 0x0C (MCE.py 144-161). -/
def intel_hdr_cpuid (d : List Nat) : Nat := readLE d 0xC 4

/-- Intel main-header `Checksum`: uint32 at 0x10 (MCE.py 144-161). -/
def intel_hdr_checksum (d : List Nat) : Nat := readLE d 0x10 4

/-- Intel main-header `PlatformIDs`: uint8 at 0x18 (MCE.py 144-161); the
three `Reserved0` bytes follow at 0x19-0x1B. -/
def intel_hdr_platform (d : List Nat) : Nat := readLE d 0x18 1

/-- Outcome of handling one scanner candidate inside a vendor loop of the
per-file scan (MCE.py 1239-1876).  The skip outcomes are the `continue`
paths (invalid date MCE.py 1277-1281 and 1497-1503, null data at 0x40
MCE.py 1506-1510, unknown AMD size MCE.py 1531-1535); a checksum failure
classifies the candidate Corrupted and carries on (MCE.py 1428-1443,
1612-1624); `truncated` is a `get_struct` read past the buffer end, which
calls `mce_exit(-1)` and so `sys.exit` (MCE.py 634-649, 576-591). -/
inductive CandOutcome where
  | ok
  | skipBadDate
  | skipNullData
  | skipUnknownSize
  | badChecksum
  | truncated
deriving DecidableEq

/-- One input file's scan: candidates are handled in order, every outcome
except `truncated` being contained locally (the loop simply proceeds), while
a truncated struct read exits the interpreter (modelled as `Except.error`),
so the rest of the file is not scanned. -/
def process_file : List CandOutcome → Except Unit (List CandOutcome)
  | [] => .ok []
  | c :: cs =>
    if c = .truncated then .error ()
    else
      match process_file cs with
      | .ok rs => .ok (c :: rs)
      | .error e => .error e

/-- The run over the input file list (MCE.py 1144): files are processed in
order; `mce_exit` ends the process, so an aborted file leaves every
remaining file unprocessed.  Returns the per-file results of the files that
were fully processed and whether the run was aborted. -/
def process_run : List (List CandOutcome) → List (List CandOutcome) × Bool
  | [] => ([], false)
  | f :: fs =>
    match process_file f with
    | .error _ => ([], true)
    | .ok r =>
      let p := process_run fs
      (r :: p.1, p.2)

/-- Folding the is-latest flag over a row list equals the start flag
conjoined with no row matching. -/
theorem foldl_flag_eq {α : Type} (p : α → Bool) (l : List α) (b : Bool) :
    l.foldl (fun s e => if p e then false else s) b = (b && !l.any p) := by
  induction l generalizing b with
  | nil => simp
  | cons a l ih =>
    simp only [List.foldl_cons, List.any_cons, ih]
    cases hpa : p a <;> simp [hpa]

/-- The platform-bit lists produced by `intel_plat` have no duplicates. -/
theorem intel_plat_nodup (x : Nat) : (intel_plat x).Nodup := by
  unfold intel_plat
  split
  · simp
  · exact (List.nodup_range 8).filter _

/-- For duplicate-free lists, being strictly shorter while a subset is the
same as the other list having an element outside this one. -/
theorem nodup_subset_length_lt (a b : List Nat) (ha : a.Nodup) (hb : b.Nodup)
    (hsub : ∀ x ∈ a, x ∈ b) : a.length < b.length ↔ ∃ x ∈ b, x ∉ a := by
  constructor
  · intro hlt
    by_contra hc
    push_neg at hc
    have hle := (hb.subperm hc).length_le
    omega
  · rintro ⟨x, hxb, hxa⟩
    have hsub2 : a ⊆ b.erase x := by
      intro y hy
      refine (List.mem_erase_of_ne fun hyx => hxa ?_).mpr (hsub y hy)
      rw [← hyx]
      exact hy
    have h1 := (ha.subperm hsub2).length_le
    have h2 : (b.erase x).length = b.length - 1 := List.length_erase_of_mem hxb
    have h3 : 0 < b.length := List.length_pos_of_mem hxb
    omega

/-- Characterization of `date_check` as a single arithmetic condition. -/
theorem date_check_iff (year month day : Nat) :
    date_check year month day = true ↔
      (1 ≤ month ∧ month ≤ 12 ∧ 1 ≤ day ∧ day ≤ 31 ∧
        (month = 2 → (year % 4 = 0 → day ≤ 29) ∧ (year % 4 ≠ 0 → day ≤ 28))) := by
  unfold date_check
  split
  · simp_all
  · split <;> split <;> simp_all

end MCE

namespace MCE

/-- Claim C5 — the two's-complement dword checksum: `checksum32` returns the
negated unsigned-32-bit dword sum modulo 2^32, and it returns exactly 0 (the
region "validates") if and only if the dword sum over the whole region is
0 modulo 2^32. -/
theorem claim_C5_checksum32 (data : List Nat) :
    checksum32 data = (2 ^ 32 - checksum32Sum data % 2 ^ 32) % 2 ^ 32 ∧
    (checksum32 data = 0 ↔ checksum32Sum data % 2 ^ 32 = 0) := by
  unfold checksum32
  have h1 : ((2 : Int) ^ 32) = 4294967296 := by norm_num
  have h2 : ((2 : Nat) ^ 32) = 4294967296 := by norm_num
  rw [h1, h2]
  constructor
  · omega
  · omega

/-- Claim C6 — `date_check` rejects Feb 29 in years not divisible by 4,
rejects Feb 30/31 always, accepts Feb 29 in 4-divisible years, and outside
February accepts exactly months 1-12 with days 1-31. -/
theorem claim_C6_date_check (year month day : Nat) :
    (month = 2 → day = 29 → year % 4 ≠ 0 → date_check year month day = false) ∧
    (month = 2 → day = 30 ∨ day = 31 → date_check year month day = false) ∧
    (month = 2 → day = 29 → year % 4 = 0 → date_check year month day = true) ∧
    (month ≠ 2 →
      (date_check year month day = true ↔
        1 ≤ month ∧ month ≤ 12 ∧ 1 ≤ day ∧ day ≤ 31)) := by
  have h := date_check_iff year month day
  refine ⟨?_, ?_, ?_, ?_⟩ <;> intros <;>
    cases hb : date_check year month day <;> (simp_all; try omega)

/-- Witness for C6 at concrete dates: 2023-02-29 is rejected (2023 not
divisible by 4), 2024-02-30 is rejected, 2024-02-29 is accepted, and
2023-01-31 is accepted while 2023-01-32 is not. -/
theorem claim_C6_date_check_witness :
    date_check 2023 2 29 = false ∧ date_check 2024 2 30 = false ∧
    date_check 2024 2 29 = true ∧ date_check 2023 1 31 = true := by
  refine ⟨(claim_C6_date_check 2023 2 29).1 rfl rfl (by decide),
          (claim_C6_date_check 2024 2 30).2.1 rfl (Or.inl rfl),
          (claim_C6_date_check 2024 2 29).2.2.1 rfl rfl (by decide),
          ((claim_C6_date_check 2023 1 31).2.2.2 (by decide)).mpr (by decide)⟩

/-- Claim C1 — Intel latest-revision comparison in normal query mode
(`-last` disabled, candidate not modded): the comparator returns not-latest
exactly when some catalog row in the same release channel (sign bit of the
32-bit revision) has a platform-ID set that is a superset of the
candidate's and either a strictly later date, or an equal date with a
strictly larger platform set or a strictly larger numeric revision. -/
theorem claim_C1_intel_latest (rows : List IntelRow) (plat in_ver : Nat)
    (in_rel : Bool) (y m d : Nat) :
    mc_upd_chk_intel rows (intel_plat plat) in_rel in_ver 0 false y m d = false ↔
      ∃ e ∈ rows,
        in_rel = rel_is_pre e.version ∧
        (∀ b ∈ intel_plat plat, b ∈ intel_plat e.platform) ∧
        ((y < e.year ∨ (y = e.year ∧ (m < e.month ∨ (m = e.month ∧ d < e.day)))) ∨
          (y = e.year ∧ m = e.month ∧ d = e.day ∧
            ((∃ x ∈ intel_plat e.platform, x ∉ intel_plat plat) ∨ in_ver < e.version))) := by
  have h0 : mc_upd_chk_intel rows (intel_plat plat) in_rel in_ver 0 false y m d
      = !(rows.any (intel_row_match (intel_plat plat) in_rel in_ver false y m d)) := by
    unfold mc_upd_chk_intel
    rw [foldl_flag_eq]
    simp
  rw [h0]
  simp only [Bool.not_eq_false', List.any_eq_true]
  refine exists_congr fun e => and_congr_right fun _ => ?_
  unfold intel_row_match
  simp only [Bool.and_eq_true, Bool.or_eq_true, beq_iff_eq, List.all_eq_true,
    decide_eq_true_eq, date_lt, Bool.not_false, Bool.and_true]
  have hbr := nodup_subset_length_lt (intel_plat plat) (intel_plat e.platform)
    (intel_plat_nodup plat) (intel_plat_nodup e.platform)
  constructor
  · rintro ⟨⟨h1, h2⟩, h3⟩
    refine ⟨h1, h2, ?_⟩
    rcases h3 with h3 | ⟨⟨⟨hy, hm⟩, hd⟩, hv⟩
    · exact Or.inl h3
    · refine Or.inr ⟨hy, hm, hd, ?_⟩
      rcases hv with hv | hv
      · exact Or.inl ((hbr h2).mp hv)
      · exact Or.inr hv
  · rintro ⟨h1, h2, h3⟩
    refine ⟨⟨h1, h2⟩, ?_⟩
    rcases h3 with h3 | ⟨hy, hm, hd, hv⟩
    · exact Or.inl h3
    · refine Or.inr ⟨⟨⟨hy, hm⟩, hd⟩, ?_⟩
      rcases hv with hv | hv
      · exact Or.inl ((hbr h2).mpr hv)
      · exact Or.inr hv

/-- Claim C3 counterexample — the AMD latest-revision query filters the
catalog by CPUID only, not by chipset IDs: a candidate with CPUID 5 and
chipset IDs (2, 2, 2) is reported not-latest because of a catalog row whose
chipset IDs are (1, 1, 1); no catalog row shares the candidate's chipset
IDs, so under the claim as stated the candidate would be latest. -/
theorem claim_C3_counterexample :
    amd_is_latest [⟨5, 1, 1, 1, 7, 2001, 1, 1⟩] 5 3 0 false 2000 1 1 = false ∧
    ∀ r ∈ ([⟨5, 1, 1, 1, 7, 2001, 1, 1⟩] : List AmdRecord),
      ¬ (r.cpuid = 5 ∧ r.nbdevid = 2 ∧ r.sbdevid = 2 ∧ r.nbsbrev = 2) := by
  constructor
  · decide
  · decide

/-- Claim C3 as amended — AMD latest-revision comparison in normal query
mode (`-last` disabled, candidate not modded): the comparator returns
not-latest exactly when some catalog row with the same CPUID (the chipset
IDs are not part of the query filter) has a strictly later date, or an
equal date with a strictly higher numeric revision. -/
theorem claim_C3_amd_latest (cat : List AmdRecord) (c in_ver y m d : Nat) :
    amd_is_latest cat c in_ver 0 false y m d = false ↔
      ∃ r ∈ cat, r.cpuid = c ∧
        ((y < r.year ∨ (y = r.year ∧ (m < r.month ∨ (m = r.month ∧ d < r.day)))) ∨
          (y = r.year ∧ m = r.month ∧ d = r.day ∧ in_ver < r.version)) := by
  have h0 : amd_is_latest cat c in_ver 0 false y m d
      = !((amd_upd_chk_rsl cat c).any (amd_entry_match in_ver false y m d)) := by
    unfold amd_is_latest mc_upd_chk_amd
    rw [foldl_flag_eq]
    simp
  rw [h0]
  simp only [Bool.not_eq_false', List.any_eq_true, amd_upd_chk_rsl, List.mem_map,
    List.mem_filter, beq_iff_eq]
  constructor
  · rintro ⟨e, ⟨r, ⟨hr, hc⟩, rfl⟩, hm⟩
    refine ⟨r, hr, hc, ?_⟩
    unfold amd_entry_match at hm
    simp only [Bool.and_eq_true, Bool.or_eq_true, beq_iff_eq, decide_eq_true_eq,
      date_lt, Bool.not_false, Bool.and_true] at hm
    tauto
  · rintro ⟨r, hr, hc, hm⟩
    refine ⟨⟨r.year, r.month, r.day, r.version⟩, ⟨r, ⟨hr, hc⟩, rfl⟩, ?_⟩
    unfold amd_entry_match
    simp only [Bool.and_eq_true, Bool.or_eq_true, beq_iff_eq, decide_eq_true_eq,
      date_lt, Bool.not_false, Bool.and_true]
    tauto

/-- Claim C10 — a candidate whose catalog record is flagged OEM/User
modified (`modded = 1`) is never reported latest by either comparator,
regardless of dates, revisions, platforms or the rest of the catalog. -/
theorem claim_C10_modded_not_latest :
    (∀ rows in_pl_bit in_rel in_ver get_last y m d,
        mc_upd_chk_intel rows in_pl_bit in_rel in_ver 1 get_last y m d = false) ∧
    (∀ rows in_ver get_last y m d,
        mc_upd_chk_amd rows in_ver 1 get_last y m d = false) := by
  constructor
  · intros
    simp [mc_upd_chk_intel]
  · intros
    simp [mc_upd_chk_amd]

/-- Claim C2 counterexample — the AMD body-checksum rule is not the claimed
one.  First: a candidate with declared checksum 2 whose payload dword sum
is 2 is accepted by the code (verdict 0) although the claim's required
congruence `sum + declaredChecksum ≡ 0 (mod 2^32)` fails.  Second: a
candidate with declared checksum 0 and nonzero payload sum is accepted
with no check at all — the skip is keyed to the declared checksum being
zero, not to the CPU family, which is not consulted by this code path. -/
theorem claim_C2_counterexample :
    (amd_mc_chk_ok none 2 (List.replicate 0x40 0 ++ [2, 0, 0, 0]) = 0 ∧
      (checksum32Sum ((List.replicate 0x40 0 ++ [2, 0, 0, 0]).drop 0x40) + 2) % 2 ^ 32 ≠ 0) ∧
    (amd_mc_chk_ok none 0 (List.replicate 0x40 0 ++ [5, 0, 0, 0]) = 0 ∧
      checksum32Sum ((List.replicate 0x40 0 ++ [5, 0, 0, 0]).drop 0x40) % 2 ^ 32 ≠ 0) := by
  refine ⟨⟨by decide, by decide⟩, ⟨by decide, by decide⟩⟩

/-- Claim C2 as amended — AMD body checksum: with no catalog bypass, the
verdict is 0 (valid) exactly when the declared checksum is zero (check
skipped, regardless of CPU family) or the declared checksum is congruent to
the dword sum of the payload past the 0x40-byte header modulo 2^32
(equivalently `checksum32(payload) + declaredChecksum ≡ 0 (mod 2^32)`,
`checksum32` being the negated sum). -/
theorem claim_C2_amd_checksum (mc_chk : Nat) (mc_data : List Nat) :
    amd_mc_chk_ok none mc_chk mc_data = 0 ↔
      (mc_chk = 0 ∨ mc_chk % 2 ^ 32 = checksum32Sum (mc_data.drop 0x40) % 2 ^ 32) := by
  by_cases hc : mc_chk = 0
  · subst hc
    simp [amd_mc_chk_ok]
  · simp only [amd_mc_chk_ok, checksum32]
    rw [if_pos hc]
    have h1 : ((2 : Int) ^ 32) = 4294967296 := by norm_num
    have h2 : ((2 : Nat) ^ 32) = 4294967296 := by norm_num
    rw [h1, h2]
    constructor
    · intro h
      right
      omega
    · intro h
      rcases h with h | h
      · exact absurd h hc
      · omega

/-- Claim C4 counterexample — Freescale integrity is not CRC-32/ISO-HDLC.
The 5-byte module `[0,0,0,0,0]` (data `[0]`, stored big-endian checksum 0)
is classified intact by the code, whose check value is the raw reflected
CRC with initial register 0 and no final XOR (0 here), while the
CRC-32/ISO-HDLC value of the data is 0xD202EF8D ≠ 0, so under the claim
the module would be Corrupted. -/
theorem claim_C4_counterexample :
    fsl_corrupted none [0, 0, 0, 0, 0] = false ∧
    crc32_iso_hdlc ([0, 0, 0, 0, 0].take ([0, 0, 0, 0, 0].length - 4)) ≠
      fsl_stored_chk [0, 0, 0, 0, 0] := by
  refine ⟨by decide, by decide⟩

/-- Claim C4 as amended — Freescale integrity check (no catalog bypass): a
module is intact exactly when the raw reflected CRC-32 (polynomial
0xEDB88320, initial register 0, no final XOR — zlib's `crc32` seeded with
0xFFFFFFFF and the result XORed with 0xFFFFFFFF) over all bytes except the
trailing four equals the big-endian 32-bit checksum stored in the last
four bytes. -/
theorem claim_C4_fsl_crc (mc_data : List Nat) :
    fsl_corrupted none mc_data = false ↔
      crc32_process 0 (mc_data.take (mc_data.length - 4)) = fsl_stored_chk mc_data := by
  unfold fsl_corrupted
  simp only [fsl_mc_chk_ok, fsl_chk_calc, crc32, Nat.xor_self, Nat.xor_cancel_right]
  simp [bne]

/-- Claim C9 counterexample — Intel: candidate bytes `[1]` found in the
catalog with a matching main Adler-32 fingerprint, so the vendor checksum
is bypassed (verdict 0 although `checksum32 [1] ≠ 0`); yet with an
Extended-Header region whose own Adler-32 differs from the stored
`adler32e` and whose `checksum32` is nonzero the candidate is still
classified Corrupted. -/
theorem claim_C9_counterexample :
    checksum32 [1] ≠ 0 ∧
    intel_mc_chk_ok (some (adler32 [1] 1)) [1] = 0 ∧
    intel_corrupted (some (adler32 [1] 1, 0)) [1] (some [1, 0, 0, 0]) false = true := by
  refine ⟨by decide, by decide, by decide⟩

/-- Claim C9 as amended — when the candidate is in the catalog and its
Adler-32 fingerprint matches the stored `adler32` column, the vendor
checksum is bypassed and the candidate is not classified Corrupted, for
AMD, VIA, Freescale, and for Intel candidates without an Extended Header;
an Intel candidate with an Extended Header can still be classified
Corrupted by the extended-region check alone. -/
theorem claim_C9_adler_bypass :
    (∀ adlE mc_data known_bad,
        intel_corrupted (some (adler32 mc_data 1, adlE)) mc_data none known_bad = false) ∧
    (∀ mc_chk mc_data, amd_corrupted (some (adler32 mc_data 1)) mc_chk mc_data = false) ∧
    (∀ mc_data exc, via_corrupted (some (adler32 mc_data 1)) mc_data exc = false) ∧
    (∀ mc_data, fsl_corrupted (some (adler32 mc_data 1)) mc_data = false) := by
  refine ⟨?_, ?_, ?_, ?_⟩ <;> intros <;>
    simp [intel_corrupted, intel_mc_chk_ok, intel_ext_verdict, amd_corrupted,
      amd_mc_chk_ok, via_corrupted, via_mc_chk_ok, fsl_corrupted, fsl_mc_chk_ok]

/-- Slice assignment preserves the buffer length when the slice fits. -/
theorem setSlice_length (d r : List Nat) (off : Nat) (h : off + r.length ≤ d.length) :
    (setSlice d off r).length = d.length := by
  simp only [setSlice, List.length_append, List.length_take, List.length_drop]
  omega

/-- Element view of an in-range slice assignment. -/
theorem setSlice_getElem? (d r : List Nat) (off i : Nat) (h : off + r.length ≤ d.length) :
    (setSlice d off r)[i]? =
      if i < off then d[i]?
      else if i < off + r.length then r[i - off]?
      else d[i]? := by
  have hto : (d.take off).length = off := by
    rw [List.length_take]
    omega
  have hl : (d.take off ++ r).length = off + r.length := by
    rw [List.length_append, hto]
  unfold setSlice
  rw [List.getElem?_append, List.getElem?_append, List.getElem?_take,
    List.getElem?_drop, hto, hl]
  split_ifs <;> first | rfl | omega | (congr 1; omega)

/-- The length of a packed dword is 4. -/
theorem le32_length (v : Nat) : (le32 v).length = 4 := rfl

/-- Element view of the Extended-Header materialization: the three written
dword spans read back the packed field values, everything else reads the
original buffer. -/
theorem materialize_ext_getElem? (d : List Nat) (f : ExtField) (i : Nat)
    (h : 0x30 ≤ d.length) :
    (materialize_ext d f)[i]? =
      if i < 0xC then d[i]?
      else if i < 0x10 then (le32 f.ProcessorSignature)[i - 0xC]?
      else if i < 0x14 then (le32 f.Checksum)[i - 0x10]?
      else if i < 0x18 then d[i]?
      else if i < 0x1C then (le32 f.PlatformIDs)[i - 0x18]?
      else d[i]? := by
  have l1 : (setSlice d 0xC (le32 f.ProcessorSignature)).length = d.length :=
    setSlice_length _ _ _ (by rw [le32_length]; omega)
  have l2 : (setSlice (setSlice d 0xC (le32 f.ProcessorSignature)) 0x10
      (le32 f.Checksum)).length = d.length := by
    rw [setSlice_length _ _ _ (by rw [le32_length, l1]; omega), l1]
  unfold materialize_ext
  rw [setSlice_getElem? _ _ _ _ (by rw [le32_length, l2]; omega),
    setSlice_getElem? _ _ _ _ (by rw [le32_length, l1]; omega),
    setSlice_getElem? _ _ _ _ (by rw [le32_length]; omega)]
  simp only [le32_length]
  split_ifs <;> first | rfl | omega

/-- Reading back a packed little-endian dword gives the value modulo 2^32. -/
theorem bytesLE_le32 (v : Nat) : bytesLE (le32 v) = v % 2 ^ 32 := by
  simp only [le32, bytesLE]
  have h2 : ((2 : Nat) ^ 32) = 4294967296 := by norm_num
  rw [h2]
  omega

/-- The three header slices of a materialized candidate hold the packed
field values. -/
theorem materialize_ext_slices (d : List Nat) (f : ExtField) (h : 0x30 ≤ d.length) :
    ((materialize_ext d f).drop 0xC).take 4 = le32 f.ProcessorSignature ∧
    ((materialize_ext d f).drop 0x10).take 4 = le32 f.Checksum ∧
    ((materialize_ext d f).drop 0x18).take 1 = (le32 f.PlatformIDs).take 1 := by
  refine ⟨?_, ?_, ?_⟩
  · apply List.ext_getElem?
    intro n
    rw [List.getElem?_take, List.getElem?_drop]
    by_cases hn : n < 4
    · rw [if_pos hn, materialize_ext_getElem? d f _ h]
      split_ifs <;> first | omega | (congr 1; omega)
    · rw [if_neg hn, eq_comm]
      apply List.getElem?_eq_none
      rw [le32_length]
      omega
  · apply List.ext_getElem?
    intro n
    rw [List.getElem?_take, List.getElem?_drop]
    by_cases hn : n < 4
    · rw [if_pos hn, materialize_ext_getElem? d f _ h]
      split_ifs <;> first | omega | (congr 1; omega)
    · rw [if_neg hn, eq_comm]
      apply List.getElem?_eq_none
      rw [le32_length]
      omega
  · apply List.ext_getElem?
    intro n
    rw [List.getElem?_take, List.getElem?_drop, List.getElem?_take]
    by_cases hn : n < 1
    · rw [if_pos hn, if_pos hn, materialize_ext_getElem? d f _ h]
      split_ifs <;> first | omega | (congr 1; omega)
    · rw [if_neg hn, if_neg hn]

/-- Claim C8 counterexample — the materialization does not leave all bytes
outside the CPUID/checksum/platform fields unchanged, and does not
reproduce the field's platform value: with original byte 7 everywhere and
an extended field whose `PlatformIDs` is 0x100, the decoded platform of
the synthetic candidate is 0 ≠ 0x100, and the `Reserved0` byte at 0x19 is
changed from 7 to 1 by the 4-byte platform write. -/
theorem claim_C8_counterexample :
    intel_hdr_platform (materialize_ext (List.replicate 0x34 7) ⟨1, 0x100, 2⟩) ≠ 0x100 ∧
    (materialize_ext (List.replicate 0x34 7) ⟨1, 0x100, 2⟩)[0x19]? ≠
      (List.replicate 0x34 7 : List Nat)[0x19]? := by
  refine ⟨by decide, by decide⟩

/-- Claim C8 as amended — materializing an Extended-Header field overwrites
the three 4-byte spans at 0x0C (CPUID), 0x10 (checksum) and 0x18 (a full
dword covering the one-byte `PlatformIDs` field and the three `Reserved0`
bytes): length is preserved, the decoded header reproduces the field's
CPUID and checksum exactly and its platform value modulo 256, and every
byte outside those three spans — in particular the whole payload — is
unchanged. -/
theorem claim_C8_materialize (d : List Nat) (f : ExtField) (h : 0x30 ≤ d.length)
    (hs : f.ProcessorSignature < 2 ^ 32) (hc : f.Checksum < 2 ^ 32) :
    (materialize_ext d f).length = d.length ∧
    intel_hdr_cpuid (materialize_ext d f) = f.ProcessorSignature ∧
    intel_hdr_checksum (materialize_ext d f) = f.Checksum ∧
    intel_hdr_platform (materialize_ext d f) = f.PlatformIDs % 256 ∧
    (∀ i, i < 0xC ∨ (0x14 ≤ i ∧ i < 0x18) ∨ 0x1C ≤ i →
      (materialize_ext d f)[i]? = d[i]?) := by
  have l1 : (setSlice d 0xC (le32 f.ProcessorSignature)).length = d.length :=
    setSlice_length _ _ _ (by rw [le32_length]; omega)
  have l2 : (setSlice (setSlice d 0xC (le32 f.ProcessorSignature)) 0x10
      (le32 f.Checksum)).length = d.length := by
    rw [setSlice_length _ _ _ (by rw [le32_length, l1]; omega), l1]
  have lm : (materialize_ext d f).length = d.length := by
    unfold materialize_ext
    rw [setSlice_length _ _ _ (by rw [le32_length, l2]; omega), l2]
  obtain ⟨hs1, hs2, hs3⟩ := materialize_ext_slices d f h
  have h2 : ((2 : Nat) ^ 32) = 4294967296 := by norm_num
  refine ⟨lm, ?_, ?_, ?_, ?_⟩
  · unfold intel_hdr_cpuid readLE
    rw [hs1, bytesLE_le32, h2]
    omega
  · unfold intel_hdr_checksum readLE
    rw [hs2, bytesLE_le32, h2]
    omega
  · unfold intel_hdr_platform readLE
    rw [hs3]
    simp [le32, bytesLE]
  · intro i hi
    rw [materialize_ext_getElem? d f i h]
    rcases hi with hi | hi | hi <;> split_ifs <;> first | rfl | omega

/-- Witness for C8 at a concrete buffer: 0x34 bytes of value 3 with the
extended field (1, 5, 2) — the synthetic candidate decodes CPUID 1. -/
theorem claim_C8_materialize_witness :
    0x30 ≤ (List.replicate 0x34 3 : List Nat).length ∧
    intel_hdr_cpuid (materialize_ext (List.replicate 0x34 3) ⟨1, 5, 2⟩) = 1 := by
  refine ⟨by decide,
    (claim_C8_materialize (List.replicate 0x34 3) ⟨1, 5, 2⟩ (by decide) (by decide)
      (by decide)).2.1⟩

/-- Claim C7 counterexample — a truncated struct read does not abort only
the current file: with two input files, the first containing a truncated
candidate and the second a perfectly fine one, the run produces no results
at all (the process exits), although the second file on its own would
process fully. -/
theorem claim_C7_counterexample :
    process_run [[CandOutcome.truncated], [CandOutcome.ok]] = ([], true) ∧
    process_file [CandOutcome.ok] = .ok [CandOutcome.ok] := by
  refine ⟨rfl, rfl⟩

/-- Claim C7 as amended — every per-candidate rejection (invalid date,
null-data probe, unknown AMD size, checksum failure) is recovered locally
and scanning continues, and only a truncated struct read aborts; but a
truncated read terminates the whole run via `mce_exit`, so neither the
rest of the current file nor any remaining input file is processed. -/
theorem claim_C7_error_containment :
    (∀ f : List CandOutcome, CandOutcome.truncated ∉ f → process_file f = .ok f) ∧
    (∀ f : List CandOutcome,
      (∃ e, process_file f = .error e) ↔ CandOutcome.truncated ∈ f) ∧
    (∀ (f : List CandOutcome) (fs : List (List CandOutcome)),
      CandOutcome.truncated ∈ f → process_run (f :: fs) = ([], true)) := by
  have h1 : ∀ f : List CandOutcome, CandOutcome.truncated ∉ f → process_file f = .ok f := by
    intro f
    induction f with
    | nil => intro _; rfl
    | cons c cs ih =>
      intro hmem
      have hc : c ≠ CandOutcome.truncated := fun hce => hmem (hce ▸ List.mem_cons_self c cs)
      have hcs : CandOutcome.truncated ∉ cs := fun hm => hmem (List.mem_cons_of_mem c hm)
      simp only [process_file, if_neg hc, ih hcs]
  have h2 : ∀ f : List CandOutcome,
      (∃ e, process_file f = .error e) ↔ CandOutcome.truncated ∈ f := by
    intro f
    induction f with
    | nil => simp [process_file]
    | cons c cs ih =>
      by_cases hc : c = CandOutcome.truncated
      · subst hc
        simp [process_file]
      · simp only [process_file, if_neg hc, List.mem_cons]
        constructor
        · rintro ⟨e, he⟩
          right
          apply ih.mp
          rcases hpf : process_file cs with e' | r
          · exact ⟨e', rfl⟩
          · rw [hpf] at he
            exact absurd he (by simp)
        · rintro (hce | hm)
          · exact absurd hce.symm hc
          · rcases ih.mpr hm with ⟨e, he⟩
            rw [he]
            exact ⟨e, rfl⟩
  refine ⟨h1, h2, ?_⟩
  intro f fs hm
  rcases (h2 f).mpr hm with ⟨e, he⟩
  simp [process_run, he]

/-- Witness for C7 at concrete runs: a file of recovered rejections
processes fully, and a run whose first file hits a truncated read aborts
with nothing processed. -/
theorem claim_C7_error_containment_witness :
    process_file [CandOutcome.skipBadDate, CandOutcome.badChecksum] =
      .ok [CandOutcome.skipBadDate, CandOutcome.badChecksum] ∧
    process_run [[CandOutcome.truncated], [CandOutcome.skipNullData]] = ([], true) := by
  refine ⟨claim_C7_error_containment.1 _ (by decide),
    claim_C7_error_containment.2.2 [CandOutcome.truncated] [[CandOutcome.skipNullData]]
      (by decide)⟩

end MCE
